import Mathlib

/-!
Shallow embedding of the AVFMS scraper (`src/scraper.py`) and proofs about it.

Strings are modelled as `List Char` (`Str`).  Python's `re.search` calls used by
the scraper are embedded as explicit left-to-right scans; Python's
`str.replace`, `str.lower`, `str.strip`, `in` and `startswith` are embedded as
the corresponding list functions.  HTML documents are modelled by records that
carry exactly the data the scraper's CSS selections read (anchor `href`/text,
container attributes and text, image `src` attributes); a `select_one` call is
modelled either by an `Option` field holding the selected element's relevant
attribute, or — where document order matters — by a first-match scan over an
element list.  `Char.toLower`/`Char.isDigit` agree with Python's
`str.lower`/`\d` on the ASCII inputs considered here.
-/

namespace AVFMS

abbrev Str := List Char

/-- Python `s.lower()`. -/
def lowerStr (s : Str) : Str := s.map Char.toLower

/-- Python `needle in hay` (substring containment). -/
def containsSub (needle : Str) : Str → Bool
  | [] => needle.isEmpty
  | c :: rest => needle.isPrefixOf (c :: rest) || containsSub needle rest

/-- Worker for `replaceAll`; `fuel` only bounds the recursion depth and never
runs out when it starts at the subject's length, since every step consumes at
least one character. -/
def replaceAllAux (pat repl : Str) : Nat → Str → Str
  | _, [] => []
  | 0, s => s
  | fuel + 1, c :: rest =>
    if pat.isPrefixOf (c :: rest) then
      repl ++ replaceAllAux pat repl fuel (rest.drop (pat.length - 1))
    else
      c :: replaceAllAux pat repl fuel rest

/-- Python `s.replace(pat, repl)`: leftmost, non-overlapping, scan continues
after the replacement text. -/
def replaceAll (pat repl s : Str) : Str := replaceAllAux pat repl s.length s

/-- Python `s.strip()` / BeautifulSoup `get_text(strip=True)`, modelled as
trimming leading and trailing whitespace from the element's text. -/
def trimStr (s : Str) : Str :=
  ((s.dropWhile Char.isWhitespace).reverse.dropWhile Char.isWhitespace).reverse

/-- Python `int()` on a non-empty digit string. -/
def digitsToNat (ds : Str) : Nat := ds.foldl (fun n c => n * 10 + (c.toNat - 48)) 0

/-- Attempted match of the regex pattern "label, then slash-or-dash, then a
captured non-empty run of non-slash characters" (IGNORECASE) anchored at the
start of `s`; the capture is the maximal such run after the separator. -/
def labelValueAt (label : Str) (s : Str) : Option Str :=
  if (s.take label.length).map Char.toLower = label then
    match s.drop label.length with
    | [] => none
    | sep :: rest =>
      if sep = '/' || sep = '-' then
        match rest.takeWhile (fun c => c ≠ '/') with
        | [] => none
        | v => some v
      else none
  else none

/-- Python `re.search` with the pattern of `labelValueAt` (IGNORECASE):
leftmost position at which the whole pattern matches, returning the capture
group. -/
def labelSearch (label : Str) : Str → Option Str
  | [] => none
  | c :: rest =>
    match labelValueAt label (c :: rest) with
    | some v => some v
    | none => labelSearch label rest

/-- Value cleanup in `_parse_seat_info`: `.replace("-", " ").replace("+", " ")`. -/
def cleanValue (v : Str) : Str := v.map (fun c => if c = '-' || c = '+' then ' ' else c)

/-- Embedding of `AVFMSScraper._parse_seat_info` (scraper.py lines 275-293). -/
def parseSeatInfo (url : Str) : Str × Option Str × Option Str :=
  let s := match labelSearch "section".data url with
    | some v => cleanValue v
    | none => []
  let row := (labelSearch "row".data url).map cleanValue
  let seat := (labelSearch "seat".data url).map cleanValue
  (s, row, seat)

/-- Scraper constant `BASE_URL`. -/
def BASE_URL : Str := "https://aviewfrommyseat.com".data

/-- URL resolution used throughout the scraper:
`href if href.startswith("http") else BASE_URL + href`. -/
def fullUrl (href : Str) : Str :=
  if "http".data.isPrefixOf href then href else BASE_URL ++ href

/-- Venue candidate dict produced by `search_venues`. -/
structure Candidate where
  name : Str
  url : Str
deriving DecidableEq

/-- Anchor element as read by the scraper: its `href` attribute (default `""`)
and its text content (stripping is applied by the scraper itself). -/
structure Anchor where
  href : Str
  text : Str
deriving DecidableEq

/-- Search-results document, modelled as the document-ordered list of its
anchor elements. -/
structure SearchDoc where
  anchors : List Anchor
deriving DecidableEq

/-- CSS selection `a[href*='/venue/']` on the search page. -/
def venueHref (a : Anchor) : Bool := containsSub "/venue/".data a.href

/-- Loop body of `AVFMSScraper.search_venues` (scraper.py lines 87-101),
with the `seen` set threaded explicitly. -/
def svLoop (seen : List Str) : List Anchor → List Candidate
  | [] => []
  | a :: rest =>
    let name := trimStr a.text
    if name.isEmpty || seen.contains a.href then svLoop seen rest
    else if containsSub "/venue/".data a.href
        && !containsSub "/section".data (lowerStr a.href) then
      { name := name, url := fullUrl a.href } :: svLoop (a.href :: seen) rest
    else svLoop seen rest

/-- Embedding of `AVFMSScraper.search_venues` (scraper.py lines 67-102), taking
the fetched document (`none` models a failed `_get`). -/
def search_venues (fetched : Option SearchDoc) : List Candidate :=
  match fetched with
  | none => []
  | some doc => svLoop [] (doc.anchors.filter venueHref)

/-- Filter stated by the spec for search results: non-empty stripped text, a
venue marker in the path, and no section marker in the lowercased path. -/
def keepAnchor (a : Anchor) : Bool :=
  !(trimStr a.text).isEmpty && containsSub "/venue/".data a.href
    && !containsSub "/section".data (lowerStr a.href)

/-- Modelled from the spec: insertion-order deduplication by key, first
occurrence wins. -/
def dedupFirstBy {α κ : Type} [DecidableEq κ] (key : α → κ) : List α → List α
  | [] => []
  | a :: rest => a :: dedupFirstBy key (rest.filter (fun b => decide (key b ≠ key a)))
termination_by l => l.length
decreasing_by
  simp only [List.length_cons]
  exact Nat.lt_succ_of_le (List.length_filter_le _ _)

/-- Modelled from the spec (section 4.3): filter, dedup by target path with the
first occurrence winning, keep document order, resolve against the base. -/
def search_venues_spec (doc : SearchDoc) : List Candidate :=
  (dedupFirstBy Anchor.href (doc.anchors.filter keepAnchor)).map
    (fun a => { name := trimStr a.text, url := fullUrl a.href })

/-- Section record (dataclass `Section`). -/
structure Section where
  name : Str
  photo_count : Nat
  url : Str
deriving DecidableEq

/-- Section container element, as read by `get_venue_sections`: the
`section_name` attribute (the CSS selection guarantees presence, but the value
may be empty), the container's visible text, and the `href` of the inner
`a` element with a venue link (`none` when `select_one` finds no such link). -/
structure SectionContainer where
  section_name : Str
  text : Str
  venueLink : Option Str
deriving DecidableEq

/-- Sections-listing document, modelled as the document-ordered list of
containers matched by `.section_contained_in[section_name]`. -/
structure SectionsDoc where
  containers : List SectionContainer
deriving DecidableEq

/-- Python `re.search` for "open paren, captured non-empty digit run, close
paren": leftmost position where a `(` is immediately followed by one or more
digits and then `)`; returns the digit run. -/
def parenCapture : Str → Option Str
  | [] => none
  | c :: rest =>
    if c = '(' then
      let digits := rest.takeWhile Char.isDigit
      if !digits.isEmpty && ((rest.drop digits.length).head? == some ')') then some digits
      else parenCapture rest
    else parenCapture rest

/-- Python `re.search` for a captured digit run: the first maximal run of
consecutive digits in the string, as a number. -/
def firstNum : Str → Option Nat
  | [] => none
  | c :: rest =>
    if c.isDigit then some (digitsToNat ((c :: rest).takeWhile Char.isDigit))
    else firstNum rest

/-- Per-container body of the `get_venue_sections` loop
(scraper.py lines 128-154). -/
def extractSection (c : SectionContainer) : Option Section :=
  if c.section_name.isEmpty then none
  else
    match c.venueLink with
    | none => none
    | some href =>
      let photo_count : Nat :=
        match parenCapture c.text with
        | some ds => digitsToNat ds
        | none => 0
      if photo_count = 0 then none
      else some { name := c.section_name, photo_count := photo_count, url := fullUrl href }

/-- Sort key `sort_key` from `get_venue_sections` (scraper.py lines 157-162),
valued in the lexicographic triple ordered exactly as Python orders the tuple
`(0 or 1, embedded number, name)`. -/
def sort_key (s : Section) : Nat ×ₗ (Nat ×ₗ Str) :=
  match firstNum s.name with
  | some n => toLex (0, toLex (n, s.name))
  | none => toLex (1, toLex (0, s.name))

/-- Comparison relation induced by `sort_key`; `list.sort(key=sort_key)` sorts
by exactly this relation. -/
def secLE (a b : Section) : Prop := sort_key a ≤ sort_key b

instance : DecidableRel secLE :=
  fun a b => inferInstanceAs (Decidable (sort_key a ≤ sort_key b))

instance : IsTotal Section secLE :=
  ⟨fun a b => le_total (sort_key a) (sort_key b)⟩

instance : IsTrans Section secLE :=
  ⟨fun _ _ _ h h2 => le_trans h h2⟩

/-- Embedding of `AVFMSScraper.get_venue_sections` (scraper.py lines 104-166):
extract sections from the fetched document, then stable-sort by `sort_key`
(insertion sort models Python's stable `list.sort`). -/
def get_venue_sections (fetched : Option SectionsDoc) : List Section :=
  match fetched with
  | none => []
  | some doc => List.insertionSort secLE (doc.containers.filterMap extractSection)

/-- Seat photo record (dataclass `SeatPhoto`). -/
structure SeatPhoto where
  image_url : Str
  «section» : Str
  row : Option Str
  seat : Option Str
  event : Option Str
  venue : Str
  photo_page_url : Str
deriving DecidableEq

/-- Photo link element on a section page: its `href` attribute (default `""`)
and, when `select_one("img")` finds an embedded image, that image's `src`
attribute (default `""`). -/
structure PhotoLink where
  href : Str
  img : Option Str
deriving DecidableEq

/-- Section-page document, modelled as the document-ordered list of its anchor
elements together with their embedded thumbnail images. -/
structure SectionDoc where
  links : List PhotoLink
deriving DecidableEq

/-- CSS selection `a[href*='/photo/']` on a section page. -/
def photoHref (l : PhotoLink) : Bool := containsSub "/photo/".data l.href

/-- Thumbnail rewrite in `get_section_photos` (scraper.py lines 202-203):
only when `"thumb"` occurs in the lowercased source, remove every `_thumb`
and then every `_small`. -/
def stripThumbMarkers (src : Str) : Str :=
  if containsSub "thumb".data (lowerStr src) then
    replaceAll "_small".data [] (replaceAll "_thumb".data [] src)
  else src

/-- Base-URL resolution for image sources (scraper.py lines 205-206 and
247-248). -/
def absolutizeSrc (src : Str) : Str :=
  if "http".data.isPrefixOf src then src else BASE_URL ++ src

/-- Per-link body of the `get_section_photos` loop (scraper.py lines 189-219). -/
def processPhotoLink (venue : Str) (l : PhotoLink) : Option SeatPhoto :=
  if l.href.isEmpty then none
  else
    let photo_page_url := fullUrl l.href
    match l.img with
    | none => none
    | some src =>
      if src.isEmpty then none
      else
        let img_src := absolutizeSrc (stripThumbMarkers src)
        let info := parseSeatInfo photo_page_url
        some { image_url := img_src, «section» := info.1, row := info.2.1,
               seat := info.2.2, event := none, venue := venue,
               photo_page_url := photo_page_url }

/-- Embedding of `AVFMSScraper.get_section_photos` (scraper.py lines 168-221):
select photo links, truncate to `max_photos`, then process each retained
link. -/
def get_section_photos (fetched : Option SectionDoc) (venue : Str) (max_photos : Nat) :
    List SeatPhoto :=
  match fetched with
  | none => []
  | some doc =>
    ((doc.links.filter photoHref).take max_photos).filterMap (processPhotoLink venue)

/-- Generic page element: tag name, class list, text content. -/
structure Elem where
  tag : Str
  classes : List Str
  text : Str
deriving DecidableEq

/-- Photo-detail document. `mainImg1`/`mainImg2` model the `src` attribute
(default `""`) of the elements found by the two `select_one` fallback queries
for the main image (`none` when the query matches nothing); `elements` is the
document-ordered element list over which the event query
`.event-name, .tour-name, h2` runs; `venueText` models the text of
`select_one("a[href*='/venue/']")`. -/
structure PhotoDoc where
  mainImg1 : Option Str
  mainImg2 : Option Str
  elements : List Elem
  venueText : Option Str
deriving DecidableEq

/-- Membership test of the CSS selector group `.event-name, .tour-name, h2`. -/
def matchesEventSel (e : Elem) : Bool :=
  e.classes.contains "event-name".data || e.classes.contains "tour-name".data
    || e.tag == "h2".data

/-- Embedding of `AVFMSScraper.get_photo_details` (scraper.py lines 223-273). -/
def get_photo_details (fetched : Option PhotoDoc) (photo_url : Str) : Option SeatPhoto :=
  match fetched with
  | none => none
  | some doc =>
    let main_img := match doc.mainImg1 with
      | some i => some i
      | none => doc.mainImg2
    match main_img with
    | none => none
    | some src =>
      let img_src := absolutizeSrc src
      let info := parseSeatInfo photo_url
      let event := (doc.elements.find? matchesEventSel).map (fun e => trimStr e.text)
      let venue := match doc.venueText with
        | some t => trimStr t
        | none => []
      some { image_url := img_src, «section» := info.1, row := info.2.1,
             seat := info.2.2, event := event, venue := venue,
             photo_page_url := photo_url }

/-- Outcome of one HTTP request, before the scraper's exception handling:
either a successfully parsed document or one of the `requests.RequestException`
failure classes caught by `_get` (scraper.py lines 63-65). -/
inductive FetchOutcome (α : Type) : Type where
  | success (doc : α)
  | timeout
  | httpError (status : Nat)
  | connectionError
deriving DecidableEq

/-- Embedding of `AVFMSScraper._get` (scraper.py lines 56-65): every failure
class is caught and collapsed to `None`. -/
def modelGet {α : Type} : FetchOutcome α → Option α
  | .success d => some d
  | .timeout => none
  | .httpError _ => none
  | .connectionError => none

/-- Logical-time model of the throttle in `_get` and `download_image`
(scraper.py lines 59-60 and 307-308): each request first sleeps `delay`, is
then issued, and completes after its (non-negative) duration; requests are
strictly serialized.  Returns the issue instants of the requests. -/
def issueTimes (delay : ℚ) : ℚ → List ℚ → List ℚ
  | _, [] => []
  | clock, dur :: rest => (clock + delay) :: issueTimes delay (clock + delay + dur) rest

/-- Completion instant of the last request in the model of `issueTimes`. -/
def finishTime (delay : ℚ) : ℚ → List ℚ → ℚ
  | clock, [] => clock
  | clock, dur :: rest => finishTime delay (clock + delay + dur) rest

/-- Ordering asserted by the spec for section lists: names containing a number
come before names without one; among the former, ascending by the embedded
number with ties broken by the full name; among the latter, lexical order. -/
def claimOrder (a b : Section) : Prop :=
  (firstNum a.name ≠ none ∧ firstNum b.name = none)
  ∨ (∃ m n, firstNum a.name = some m ∧ firstNum b.name = some n
      ∧ (m < n ∨ (m = n ∧ a.name ≤ b.name)))
  ∨ (firstNum a.name = none ∧ firstNum b.name = none ∧ a.name ≤ b.name)

/-- Section container whose text holds a zero count before the count 34. -/
def c3Container : SectionContainer :=
  { section_name := "A".data, text := "(0) out of (34)".data,
    venueLink := some "/venue/a".data }

/-- Section page with 25 photo links sharing one target path. -/
def c4Doc : SectionDoc :=
  { links := List.replicate 25 { href := "/photo/x".data, img := some "/i.jpg".data } }

/-- Section page with two photo links with distinct target paths. -/
def c4WitDoc : SectionDoc :=
  { links := [{ href := "/photo/a".data, img := some "/a_thumb.jpg".data },
              { href := "/photo/b".data, img := some "/b.jpg".data }] }

/-- Section page whose only thumbnail source carries a `_small` marker but no
`thumb` substring. -/
def c5Doc : SectionDoc :=
  { links := [{ href := "/photo/a".data, img := some "/p/photo_small.jpg".data }] }

/-- Photo page whose only matching event element is a plain `h2` heading. -/
def c10Doc : PhotoDoc :=
  { mainImg1 := some "/photos/a.jpg".data, mainImg2 := none,
    elements := [{ tag := "div".data, classes := [], text := "x".data },
                 { tag := "h2".data, classes := [], text := " My Event ".data }],
    venueText := none }

/-- Photo-page URL used with `c10Doc`. -/
def c10Url : Str := "https://x/photo/1/".data

theorem cleanValue_no_dash_plus (v : Str) :
    '-' ∉ cleanValue v ∧ '+' ∉ cleanValue v := by
  constructor <;>
  · intro h
    rcases List.mem_map.mp h with ⟨c, _, hc⟩
    by_cases h1 : c = '-' <;> by_cases h2 : c = '+' <;> simp [h1, h2] at hc

theorem labelValueAt_no_slash (label : Str) (s : Str) (v : Str)
    (h : labelValueAt label s = some v) : '/' ∉ v := by
  unfold labelValueAt at h
  split at h
  · revert h
    split
    · intro h; cases h
    · split
      · split
        · intro h; cases h
        · intro h
          intro hmem
          cases h
          have := List.mem_takeWhile_imp hmem
          simp at this
      · intro h; cases h
  · cases h

theorem labelSearch_no_slash (label : Str) (s : Str) (v : Str)
    (h : labelSearch label s = some v) : '/' ∉ v := by
  induction s with
  | nil => cases h
  | cons c rest ih =>
    unfold labelSearch at h
    revert h
    split
    · intro h
      cases h
      exact labelValueAt_no_slash label (c :: rest) v (by assumption)
    · intro h
      exact ih h

theorem cleanValue_no_slash (v : Str) (h : '/' ∉ v) : '/' ∉ cleanValue v := by
  intro hmem
  rcases List.mem_map.mp hmem with ⟨c, hc, heq⟩
  by_cases h1 : c = '-' <;> by_cases h2 : c = '+' <;> simp [h1, h2] at heq
  exact h (heq ▸ hc)

/-- C1: the seat-info parser runs three independent label searches
(`section`, `row`, `seat`, each followed by `/` or `-` and a value running to
the next `/`), replaces `-`/`+` inside captured values by spaces, yields
empty/None for a missing label, and on the two example URLs produces
(`"100"`, `"A"`, `"5"`) and (`"GA"`, None, None) respectively; captured values
never retain a `-`, `+` or `/`. -/
theorem c1_parse_seat_info :
    (parseSeatInfo "https://x/venue/v/photo/section-100/row-A/seat-5/".data
      = ("100".data, some "A".data, some "5".data))
  ∧ (parseSeatInfo "https://x/venue/v/photo/section-GA/".data
      = ("GA".data, none, none))
  ∧ (∀ url : Str, labelSearch "row".data url = none → (parseSeatInfo url).2.1 = none)
  ∧ (∀ url : Str, labelSearch "seat".data url = none → (parseSeatInfo url).2.2 = none)
  ∧ (∀ url : Str, labelSearch "section".data url = none → (parseSeatInfo url).1 = [])
  ∧ (∀ url v, (parseSeatInfo url).2.1 = some v → '-' ∉ v ∧ '+' ∉ v ∧ '/' ∉ v) := by
  refine ⟨by decide, by decide, ?_, ?_, ?_, ?_⟩
  · intro url h; simp [parseSeatInfo, h]
  · intro url h; simp [parseSeatInfo, h]
  · intro url h; simp [parseSeatInfo, h]
  · intro url v h
    simp only [parseSeatInfo, Option.map_eq_some'] at h
    rcases h with ⟨w, hw, hv⟩
    subst hv
    refine ⟨(cleanValue_no_dash_plus w).1, (cleanValue_no_dash_plus w).2, ?_⟩
    exact cleanValue_no_slash w (labelSearch_no_slash _ url w hw)

/-- C1 witness: the row field of the first example URL arises from a successful
search and contains no `-`, `+` or `/`. -/
theorem c1_parse_seat_info_witness :
    (parseSeatInfo "https://x/venue/v/photo/section-100/row-A/seat-5/".data).2.1
        = some "A".data
    ∧ '-' ∉ "A".data ∧ '+' ∉ "A".data ∧ '/' ∉ "A".data := by
  have h := c1_parse_seat_info
  refine ⟨by decide, ?_⟩
  exact h.2.2.2.2.2 "https://x/venue/v/photo/section-100/row-A/seat-5/".data "A".data
    (by decide)

theorem secLE_imp_claimOrder (a b : Section) (h : secLE a b) : claimOrder a b := by
  unfold claimOrder
  cases ha : firstNum a.name with
  | some m =>
    cases hb : firstNum b.name with
    | some n =>
      simp only [secLE, sort_key, ha, hb] at h
      rw [Prod.Lex.le_iff] at h
      simp only [lt_self_iff_false, true_and, false_or] at h
      rw [Prod.Lex.le_iff] at h
      exact Or.inr (Or.inl ⟨m, n, rfl, rfl, h⟩)
    | none => exact Or.inl ⟨by simp, rfl⟩
  | none =>
    cases hb : firstNum b.name with
    | some n =>
      simp only [secLE, sort_key, ha, hb] at h
      rw [Prod.Lex.le_iff] at h
      simp at h
    | none =>
      simp only [secLE, sort_key, ha, hb] at h
      rw [Prod.Lex.le_iff] at h
      simp only [lt_self_iff_false, true_and, false_or] at h
      rw [Prod.Lex.le_iff] at h
      simp only [lt_self_iff_false, true_and, false_or] at h
      exact Or.inr (Or.inr ⟨rfl, rfl, h⟩)

/-- C2: the section list returned by `get_venue_sections` is a permutation of
the extracted sections, sorted so that any name containing an integer sorts
before the names without one, numeric names ascend by their embedded number
with ties broken by the full name, and non-numeric names are in lexical
order among themselves. -/
theorem c2_sections_sorted (doc : SectionsDoc) :
    List.Sorted claimOrder (get_venue_sections (some doc))
    ∧ (get_venue_sections (some doc)).Perm (doc.containers.filterMap extractSection) := by
  constructor
  · have hs : List.Sorted secLE
        (List.insertionSort secLE (doc.containers.filterMap extractSection)) :=
      List.sorted_insertionSort secLE _
    exact hs.imp (fun h => secLE_imp_claimOrder _ _ h)
  · exact List.perm_insertionSort secLE _

theorem extractSection_pos (c : SectionContainer) (s : Section)
    (h : extractSection c = some s) : 0 < s.photo_count := by
  cases hn : c.section_name.isEmpty with
  | true => simp [extractSection, hn] at h
  | false =>
    cases hv : c.venueLink with
    | none => simp [extractSection, hn, hv] at h
    | some href =>
      cases hp : parenCapture c.text with
      | none => simp [extractSection, hn, hv, hp] at h
      | some ds =>
        by_cases hz : digitsToNat ds = 0
        · simp [extractSection, hn, hv, hp, hz] at h
        · simp [extractSection, hn, hv, hp, hz] at h
          rw [← h]
          exact Nat.pos_of_ne_zero hz

/-- C3 counterexample: a container whose text contains the substring `"(34)"`
but whose first parenthesized integer is 0 yields no `Section` at all — in
particular no `photoCount` of 34. -/
theorem c3_counterexample :
    containsSub "(34)".data c3Container.text = true
    ∧ extractSection c3Container = none
    ∧ get_venue_sections (some { containers := [c3Container] }) = [] := by
  exact ⟨by decide, by decide, by decide⟩

/-- C3 (amended): the photo count extracted from a container is the *first*
parenthesized integer in its text; a container with no parenthesized integer,
or whose first parenthesized integer is 0, yields no record, and every section
returned by `get_venue_sections` has a positive `photo_count`. -/
theorem c3_first_paren_count (c : SectionContainer) (doc : SectionsDoc) :
    (∀ ds href, parenCapture c.text = some ds → c.section_name.isEmpty = false →
        c.venueLink = some href → 0 < digitsToNat ds →
        extractSection c
          = some { name := c.section_name, photo_count := digitsToNat ds,
                   url := fullUrl href })
  ∧ (parenCapture c.text = none → extractSection c = none)
  ∧ (∀ ds, parenCapture c.text = some ds → digitsToNat ds = 0 → extractSection c = none)
  ∧ (∀ s, s ∈ get_venue_sections (some doc) → 0 < s.photo_count) := by
  refine ⟨?_, ?_, ?_, ?_⟩
  · intro ds href h1 h2 h3 h4
    simp [extractSection, h1, h2, h3, Nat.pos_iff_ne_zero.mp h4]
  · intro h1
    unfold extractSection
    split
    · rfl
    · cases h3 : c.venueLink with
      | none => rfl
      | some href => simp [h1]
  · intro ds h1 h2
    unfold extractSection
    split
    · rfl
    · cases h3 : c.venueLink with
      | none => rfl
      | some href => simp [h1, h2]
  · intro s hs
    simp only [get_venue_sections, List.mem_insertionSort] at hs
    rcases List.mem_filterMap.mp hs with ⟨c', _, hc'⟩
    exact extractSection_pos c' s hc'

/-- C3 witness: a container whose first parenthesized integer is 34 yields a
section with `photo_count = 34`. -/
theorem c3_first_paren_count_witness :
    extractSection
        { section_name := "100".data, text := "100 (34)".data,
          venueLink := some "/venue/x".data }
      = some { name := "100".data, photo_count := 34,
               url := "https://aviewfrommyseat.com/venue/x".data } := by
  have h := (c3_first_paren_count
    { section_name := "100".data, text := "100 (34)".data,
      venueLink := some "/venue/x".data } { containers := [] }).1
  have h2 := h "34".data "/venue/x".data (by decide) (by decide) rfl (by decide)
  exact h2.trans (by decide)

theorem length_filterMap_of_isSome {α β : Type} (f : α → Option β) :
    ∀ l : List α, (∀ a ∈ l, (f a).isSome) → (l.filterMap f).length = l.length := by
  intro l
  induction l with
  | nil => intro _; rfl
  | cons a rest ih =>
    intro h
    rcases Option.isSome_iff_exists.mp (h a (List.mem_cons_self a rest)) with ⟨b, hb⟩
    simp only [List.filterMap_cons, hb, List.length_cons]
    rw [ih (fun x hx => h x (List.mem_cons_of_mem a hx))]

theorem processPhotoLink_isSome (venue : Str) (l : PhotoLink)
    (h1 : l.href.isEmpty = false)
    (h2 : l.img.elim false (fun s => !s.isEmpty) = true) :
    (processPhotoLink venue l).isSome := by
  cases hi : l.img with
  | none => rw [hi] at h2; cases h2
  | some s =>
    rw [hi] at h2
    simp only [Option.elim, Bool.not_eq_true'] at h2
    simp [processPhotoLink, h1, hi, h2]

theorem processPhotoLink_url (venue : Str) (l : PhotoLink) (p : SeatPhoto)
    (h : processPhotoLink venue l = some p) : p.photo_page_url = fullUrl l.href := by
  cases hh : l.href.isEmpty with
  | true => simp [processPhotoLink, hh] at h
  | false =>
    cases hi : l.img with
    | none => simp [processPhotoLink, hh, hi] at h
    | some s =>
      cases hs : s.isEmpty with
      | true => simp [processPhotoLink, hh, hi, hs] at h
      | false =>
        simp only [processPhotoLink, hh, hi, hs, Bool.false_eq_true, if_false,
          Option.some.injEq] at h
        rw [← h]

/-- C4 counterexample: a section page with 25 candidate photo links and
`maxPhotos = 10` yields 10 records, but their `photo_page_url`s are not
distinct, because the candidates share one target path. -/
theorem c4_counterexample :
    c4Doc.links.length = 25
    ∧ c4Doc.links.all photoHref = true
    ∧ (get_section_photos (some c4Doc) [] 10).length = 10
    ∧ ¬ ((get_section_photos (some c4Doc) [] 10).map SeatPhoto.photo_page_url).Nodup := by
  exact ⟨by decide, by decide, by decide, by decide⟩

/-- C4 (amended): the `maxPhotos` cap is applied to the candidate list before
any per-link processing — the result only depends on the first `maxPhotos`
candidates — and at most `maxPhotos` records are returned; exactly
`min maxPhotos candidates` records come back when each retained candidate has
a non-empty target and a thumbnail with non-empty source, and the page URLs are
distinct when the retained candidates resolve to distinct full URLs. -/
theorem c4_cap_before_processing (doc : SectionDoc) (venue : Str) (n : Nat) :
    (get_section_photos (some doc) venue n
        = get_section_photos (some { links := (doc.links.filter photoHref).take n }) venue n)
  ∧ (get_section_photos (some doc) venue n).length ≤ n
  ∧ ((∀ l ∈ (doc.links.filter photoHref).take n,
        l.href.isEmpty = false ∧ l.img.elim false (fun s => !s.isEmpty) = true) →
      (get_section_photos (some doc) venue n).length
        = min n (doc.links.filter photoHref).length)
  ∧ (((doc.links.filter photoHref).take n).Pairwise
        (fun a b => fullUrl a.href ≠ fullUrl b.href) →
      ((get_section_photos (some doc) venue n).map SeatPhoto.photo_page_url).Nodup) := by
  have hall : ∀ l ∈ (doc.links.filter photoHref).take n, photoHref l = true :=
    fun l hl => List.of_mem_filter (List.take_subset n _ hl)
  refine ⟨?_, ?_, ?_, ?_⟩
  · simp only [get_section_photos]
    rw [List.filter_eq_self.mpr hall, List.take_take, min_self]
  · simp only [get_section_photos]
    calc (((doc.links.filter photoHref).take n).filterMap (processPhotoLink venue)).length
        ≤ ((doc.links.filter photoHref).take n).length := List.length_filterMap_le _ _
      _ ≤ n := by rw [List.length_take]; exact min_le_left _ _
  · intro h
    simp only [get_section_photos]
    rw [length_filterMap_of_isSome _ _
      (fun l hl => processPhotoLink_isSome venue l (h l hl).1 (h l hl).2)]
    exact List.length_take _ _
  · intro h
    simp only [get_section_photos]
    unfold List.Nodup
    rw [List.pairwise_map]
    refine List.Pairwise.filterMap (processPhotoLink venue) ?_ h
    intro a a' hr b hb b' hb'
    rw [processPhotoLink_url venue a b (Option.mem_def.mp hb),
      processPhotoLink_url venue a' b' (Option.mem_def.mp hb')]
    exact hr

/-- C4 witness: on a page with two distinct candidates and `maxPhotos = 2`,
both hypotheses of the amended theorem hold and give two records with
distinct page URLs. -/
theorem c4_cap_before_processing_witness :
    (get_section_photos (some c4WitDoc) [] 2).length
        = min 2 (c4WitDoc.links.filter photoHref).length
    ∧ ((get_section_photos (some c4WitDoc) [] 2).map SeatPhoto.photo_page_url).Nodup := by
  have h := c4_cap_before_processing c4WitDoc [] 2
  exact ⟨h.2.2.1 (by decide), h.2.2.2 (by decide)⟩

theorem absolutizeSrc_http (src : Str) :
    "http".data.isPrefixOf (absolutizeSrc src) = true := by
  unfold absolutizeSrc
  split
  · assumption
  · rw [ List.isPrefixOf_iff_prefix]
    exact List.IsPrefix.trans ⟨"s://aviewfrommyseat.com".data, by decide⟩
      (List.prefix_append _ _)

theorem processPhotoLink_http (venue : Str) (l : PhotoLink) (p : SeatPhoto)
    (h : processPhotoLink venue l = some p) :
    "http".data.isPrefixOf p.image_url = true := by
  cases hh : l.href.isEmpty with
  | true => simp [processPhotoLink, hh] at h
  | false =>
    cases hi : l.img with
    | none => simp [processPhotoLink, hh, hi] at h
    | some s =>
      cases hs : s.isEmpty with
      | true => simp [processPhotoLink, hh, hi, hs] at h
      | false =>
        simp only [processPhotoLink, hh, hi, hs, Bool.false_eq_true, if_false,
          Option.some.injEq] at h
        rw [← h]
        exact absolutizeSrc_http _

/-- C5 counterexample: a thumbnail source containing `_small` but no `thumb`
substring is stored unchanged (marker not dropped) in the resulting record's
`image_url`. -/
theorem c5_counterexample :
    (get_section_photos (some c5Doc) [] 20).map SeatPhoto.image_url
      = ["https://aviewfrommyseat.com/p/photo_small.jpg".data]
    ∧ containsSub "_small".data
        "https://aviewfrommyseat.com/p/photo_small.jpg".data = true := by
  exact ⟨by decide, by decide⟩

/-- C5 (amended): the thumbnail rewrite fires only when the lowercased source
contains `thumb` — it then removes every `_thumb` and then every `_small`
(e.g. `photo_thumb.jpg` becomes `photo.jpg`); a source without `thumb` is kept
verbatim, and every stored `image_url` starts with `http` (base-prefixed when
the source is relative). -/
theorem c5_thumb_rewrite (src : Str) (doc : SectionDoc) (venue : Str) (n : Nat) :
    stripThumbMarkers "photo_thumb.jpg".data = "photo.jpg".data
  ∧ (containsSub "thumb".data (lowerStr src) = false → stripThumbMarkers src = src)
  ∧ (containsSub "thumb".data (lowerStr src) = true →
      stripThumbMarkers src
        = replaceAll "_small".data [] (replaceAll "_thumb".data [] src))
  ∧ (∀ p ∈ get_section_photos (some doc) venue n,
      "http".data.isPrefixOf p.image_url = true) := by
  refine ⟨by decide, ?_, ?_, ?_⟩
  · intro h
    simp [stripThumbMarkers, h]
  · intro h
    simp [stripThumbMarkers, h]
  · intro p hp
    simp only [get_section_photos] at hp
    rcases List.mem_filterMap.mp hp with ⟨l, _, hl⟩
    exact processPhotoLink_http venue l p hl

/-- C5 witness: a `_small`-only source survives unchanged, and a concrete
section page yields an absolute image URL. -/
theorem c5_thumb_rewrite_witness :
    stripThumbMarkers "photo_small.jpg".data = "photo_small.jpg".data := by
  exact (c5_thumb_rewrite "photo_small.jpg".data { links := [] } [] 0).2.1 (by decide)

theorem svLoop_eq_dedup (l : List Anchor) :
    ∀ seen : List Str,
      svLoop seen l
        = (dedupFirstBy Anchor.href
            ((l.filter keepAnchor).filter (fun x => !seen.contains x.href))).map
            (fun x => { name := trimStr x.text, url := fullUrl x.href }) := by
  induction l with
  | nil => intro seen; simp [svLoop, dedupFirstBy]
  | cons a rest ih =>
    intro seen
    cases h1 : (trimStr a.text).isEmpty with
    | true =>
      have hk : keepAnchor a = false := by simp [keepAnchor, h1]
      have hl : svLoop seen (a :: rest) = svLoop seen rest := by
        simp [svLoop, h1]
      rw [hl, List.filter_cons, hk]
      simpa using ih seen
    | false =>
      have hk : keepAnchor a
          = (containsSub "/venue/".data a.href
              && !containsSub "/section".data (lowerStr a.href)) := by
        simp [keepAnchor, h1]
      cases h2 : seen.contains a.href with
      | true =>
        have h2m : a.href ∈ seen := by simpa using h2
        have hl : svLoop seen (a :: rest) = svLoop seen rest := by
          simp [svLoop, h1, h2m]
        have hf : ((a :: rest).filter keepAnchor).filter (fun x => !seen.contains x.href)
            = (rest.filter keepAnchor).filter (fun x => !seen.contains x.href) := by
          cases hka : keepAnchor a <;> simp [List.filter_cons, hka, h2m]
        rw [hl, hf]
        exact ih seen
      | false =>
        have h2m : a.href ∉ seen := by simpa using h2
        cases h3 : (containsSub "/venue/".data a.href
            && !containsSub "/section".data (lowerStr a.href)) with
        | false =>
          have hka : keepAnchor a = false := hk.trans h3
          have hl : svLoop seen (a :: rest) = svLoop seen rest := by
            have h3a := h3
            simp only [Bool.and_eq_false_iff] at h3a
            simp only [svLoop]
            rcases h3a with h3a | h3a <;> simp [h1, h2m, h3a]
          rw [hl, List.filter_cons, hka]
          simpa using ih seen
        | true =>
          have hka : keepAnchor a = true := hk.trans h3
          have h3a := h3
          simp only [Bool.and_eq_true] at h3a
          have hl : svLoop seen (a :: rest)
              = { name := trimStr a.text, url := fullUrl a.href }
                  :: svLoop (a.href :: seen) rest := by
            simp [svLoop, h1, h2m, h3a.1, h3a.2]
          have hf : ((a :: rest).filter keepAnchor).filter (fun x => !seen.contains x.href)
              = a :: ((rest.filter keepAnchor).filter (fun x => !seen.contains x.href)) := by
            simp [List.filter_cons, hka, h2m]
          rw [hl, hf, dedupFirstBy, List.map_cons]
          congr 1
          rw [ih (a.href :: seen)]
          have hfe : (rest.filter keepAnchor).filter
              (fun x => !(a.href :: seen).contains x.href)
            = ((rest.filter keepAnchor).filter (fun x => !seen.contains x.href)).filter
                (fun b => decide (b.href ≠ a.href)) := by
            simp only [List.filter_filter]
            refine List.filter_congr ?_
            intro x _
            by_cases hx : x.href = a.href
            · by_cases hs : x.href ∈ seen <;> simp [hx, hs]
            · by_cases hs : x.href ∈ seen <;> simp [hx, hs]
          rw [hfe]

/-- C6: `search_venues` returns exactly the spec-side pipeline result: anchors
with empty stripped text or a section marker in the lowercased path are
filtered out, the remainder is deduplicated by target path with the first
occurrence winning, document order is preserved, and each kept path is
resolved against the base URL. -/
theorem c6_search_dedup (doc : SearchDoc) :
    search_venues (some doc) = search_venues_spec doc := by
  show svLoop [] (doc.anchors.filter venueHref)
      = (dedupFirstBy Anchor.href (doc.anchors.filter keepAnchor)).map
          (fun a => { name := trimStr a.text, url := fullUrl a.href })
  rw [svLoop_eq_dedup]
  have h0 : ((doc.anchors.filter venueHref).filter keepAnchor).filter
      (fun x => !([] : List Str).contains x.href)
        = (doc.anchors.filter venueHref).filter keepAnchor :=
    List.filter_eq_self.mpr (fun x _ => rfl)
  rw [h0]
  have heq : (doc.anchors.filter venueHref).filter keepAnchor
      = doc.anchors.filter keepAnchor := by
    rw [List.filter_filter]
    refine List.filter_congr ?_
    intro x _
    cases hv : venueHref x with
    | true => simp [hv]
    | false =>
      have hkf : keepAnchor x = false := by
        simp only [venueHref] at hv
        simp [keepAnchor, hv]
      simp [hkf, hv]
  rw [heq]

/-- C7 counterexample: the fetch layer collapses every failure class to the
same `none`, and `search_venues` maps a failed fetch to `[]`, the very output
of a successful fetch of a page with no results — the caller cannot tell the
two apart. -/
theorem c7_counterexample :
    modelGet (FetchOutcome.timeout : FetchOutcome SearchDoc)
      = modelGet (FetchOutcome.httpError 500 : FetchOutcome SearchDoc)
    ∧ search_venues (modelGet (FetchOutcome.timeout : FetchOutcome SearchDoc)) = []
    ∧ search_venues (modelGet (FetchOutcome.success { anchors := [] })) = [] := by
  exact ⟨rfl, rfl, rfl⟩

/-- C7 (amended): `_get` returns the parsed document on success and an
unclassified `none` on every failure (timeout, HTTP error status, network
error alike), and each extractor maps a failed fetch to an empty list (or
`none` for photo details), so the returned value does not distinguish "no
results" from "fetch failed". -/
theorem c7_failures_collapse {α : Type} (o : FetchOutcome α)
    (o₁ : FetchOutcome SearchDoc) (o₂ : FetchOutcome SectionsDoc)
    (o₃ : FetchOutcome SectionDoc) (o₄ : FetchOutcome PhotoDoc)
    (venue u : Str) (n : Nat) :
    ((∀ d, o ≠ FetchOutcome.success d) → modelGet o = none)
  ∧ (modelGet o₁ = none → search_venues (modelGet o₁) = [])
  ∧ (modelGet o₂ = none → get_venue_sections (modelGet o₂) = [])
  ∧ (modelGet o₃ = none → get_section_photos (modelGet o₃) venue n = [])
  ∧ (modelGet o₄ = none → get_photo_details (modelGet o₄) u = none) := by
  refine ⟨?_, ?_, ?_, ?_, ?_⟩
  · intro h
    cases o with
    | success d => exact absurd rfl (h d)
    | timeout => rfl
    | httpError s => rfl
    | connectionError => rfl
  · intro h; rw [h]; rfl
  · intro h; rw [h]; rfl
  · intro h; rw [h]; rfl
  · intro h; rw [h]; rfl

/-- C7 witness: instantiation of the amended theorem at a timeout outcome. -/
theorem c7_failures_collapse_witness :
    modelGet (FetchOutcome.timeout : FetchOutcome SearchDoc) = none
    ∧ search_venues (modelGet (FetchOutcome.timeout : FetchOutcome SearchDoc)) = [] := by
  have h := c7_failures_collapse (FetchOutcome.timeout : FetchOutcome SearchDoc)
    (FetchOutcome.timeout : FetchOutcome SearchDoc)
    (FetchOutcome.timeout : FetchOutcome SectionsDoc)
    (FetchOutcome.timeout : FetchOutcome SectionDoc)
    (FetchOutcome.timeout : FetchOutcome PhotoDoc) [] [] 0
  refine ⟨h.1 (fun d => by simp), h.2.1 (h.1 (fun d => by simp))⟩

/-- C8: no extractor raises: a failed fetch yields an empty list from each of
the listing extractors and `none` from `get_photo_details`, and a photo page
on which no main-image selector matches yields `none` as well (absence, not an
error). -/
theorem c8_extractors_degrade (doc : PhotoDoc) (venue u : Str) (n : Nat) :
    search_venues none = []
  ∧ get_venue_sections none = []
  ∧ get_section_photos none venue n = []
  ∧ get_photo_details none u = none
  ∧ (doc.mainImg1 = none → doc.mainImg2 = none →
      get_photo_details (some doc) u = none) := by
  refine ⟨rfl, rfl, rfl, rfl, ?_⟩
  intro h1 h2
  simp [get_photo_details, h1, h2]

/-- C8 witness: a photo page with no matching main-image element produces an
absent record. -/
theorem c8_extractors_degrade_witness :
    get_photo_details
        (some { mainImg1 := none, mainImg2 := none, elements := [], venueText := none })
        "https://x/photo/1/".data = none := by
  exact (c8_extractors_degrade
    { mainImg1 := none, mainImg2 := none, elements := [], venueText := none }
    [] "https://x/photo/1/".data 0).2.2.2.2 rfl rfl

/-- C9: in the logical-time model of the throttle, every request is issued at
least `delay` after the previous request's issue instant (and at least `delay`
after the clock at which the batch starts), and a batch of `n` sequential
requests takes at least `n * delay` in total. -/
theorem c9_throttle (delay : ℚ) (hd : 0 ≤ delay) :
    ∀ (durs : List ℚ) (clock : ℚ), (∀ x ∈ durs, 0 ≤ x) →
      (∀ t ∈ issueTimes delay clock durs, clock + delay ≤ t)
      ∧ List.Chain' (fun a b => a + delay ≤ b) (issueTimes delay clock durs)
      ∧ clock + (durs.length : ℚ) * delay ≤ finishTime delay clock durs := by
  intro durs
  induction durs with
  | nil =>
    intro clock h
    refine ⟨?_, ?_, ?_⟩
    · intro t ht
      simp [issueTimes] at ht
    · simp [issueTimes]
    · simp [finishTime]
  | cons dur rest ih =>
    intro clock h
    have hdur : 0 ≤ dur := h dur (List.mem_cons_self _ _)
    have hrest := ih (clock + delay + dur) (fun x hx => h x (List.mem_cons_of_mem _ hx))
    refine ⟨?_, ?_, ?_⟩
    · intro t ht
      simp only [issueTimes, List.mem_cons] at ht
      rcases ht with rfl | ht
      · linarith
      · have := hrest.1 t ht
        linarith
    · show List.Chain' _ ((clock + delay) :: issueTimes delay (clock + delay + dur) rest)
      rw [List.chain'_cons']
      refine ⟨?_, hrest.2.1⟩
      intro y hy
      have := hrest.1 y (List.mem_of_mem_head? hy)
      linarith
    · simp only [finishTime, List.length_cons]
      have h2 := hrest.2.2
      push_cast
      push_cast at h2
      linarith

/-- C9 witness: three zero-duration requests with delay 1 starting at clock 0
are issued at least 1 apart and take at least 3 time units in total. -/
theorem c9_throttle_witness :
    List.Chain' (fun a b => a + 1 ≤ b) (issueTimes 1 0 [0, 0, 0])
    ∧ (0 : ℚ) + (([0, 0, 0] : List ℚ).length : ℚ) * 1 ≤ finishTime 1 0 [0, 0, 0] := by
  have h := c9_throttle 1 (by norm_num) [0, 0, 0] 0
    (by intro x hx; fin_cases hx <;> norm_num)
  exact ⟨h.2.1, h.2.2⟩

theorem find?_prefix_first {α : Type} (p : α → Bool) :
    ∀ (pre : List α) (e : α) (post : List α),
      (∀ x ∈ pre, p x = false) → p e = true →
      (pre ++ e :: post).find? p = some e := by
  intro pre
  induction pre with
  | nil =>
    intro e post _ he
    simp [List.find?_cons, he]
  | cons a rest ih =>
    intro e post hpre he
    have ha : p a = false := hpre a (List.mem_cons_self _ _)
    simp only [List.cons_append, List.find?_cons, ha]
    exact ih e post (fun x hx => hpre x (List.mem_cons_of_mem _ hx)) he

/-- C10: in every `SeatPhoto` returned by `get_photo_details`, the `event`
field is the stripped text of the first element in document order matching
`.event-name`, `.tour-name` or `h2` — any `h2` heading matches — and `event`
is `None` exactly when no element matches. -/
theorem c10_event_field (doc : PhotoDoc) (u : Str) (p : SeatPhoto)
    (h : get_photo_details (some doc) u = some p) :
    (p.event = (doc.elements.find? matchesEventSel).map (fun e => trimStr e.text))
  ∧ (p.event = none ↔ ∀ e ∈ doc.elements, matchesEventSel e = false)
  ∧ (∀ pre e post, doc.elements = pre ++ e :: post →
      (∀ x ∈ pre, matchesEventSel x = false) → matchesEventSel e = true →
      p.event = some (trimStr e.text))
  ∧ (∀ e : Elem, e.tag = "h2".data → matchesEventSel e = true) := by
  have hev : p.event = (doc.elements.find? matchesEventSel).map (fun e => trimStr e.text) := by
    cases h1 : doc.mainImg1 with
    | some i =>
      simp only [get_photo_details, h1, Option.some.injEq] at h
      rw [← h]
    | none =>
      cases h2 : doc.mainImg2 with
      | some i =>
        simp only [get_photo_details, h1, h2, Option.some.injEq] at h
        rw [← h]
      | none =>
        simp [get_photo_details, h1, h2] at h
  refine ⟨hev, ?_, ?_, ?_⟩
  · rw [hev]
    rw [Option.map_eq_none']
    rw [List.find?_eq_none]
    constructor
    · intro hn e he
      have := hn e he
      simpa using this
    · intro hn e he
      simp [hn e he]
  · intro pre e post hsplit hpre he
    rw [hev, hsplit, find?_prefix_first matchesEventSel pre e post hpre he]
    rfl
  · intro e he
    simp [matchesEventSel, he]

/-- C10 witness: on a page whose only matching element is an `h2` heading, the
returned record's event is that heading's stripped text. -/
theorem c10_event_field_witness :
    (get_photo_details (some c10Doc) c10Url).map SeatPhoto.event
      = some (some "My Event".data) := by
  rcases hres : get_photo_details (some c10Doc) c10Url with _ | p
  · exact absurd hres (by decide)
  · have h := (c10_event_field c10Doc c10Url p hres).2.2.1
    have h2 := h [{ tag := "div".data, classes := [], text := "x".data }]
      { tag := "h2".data, classes := [], text := " My Event ".data } []
      rfl (by decide) (by decide)
    rw [Option.map_some', h2]
    decide

end AVFMS
